import Mathlib

/-!
Verification of the go-slack client library against its specification.

The Go source is embedded shallowly:
* strings are modelled as `List Char` (the inputs of interest are ASCII);
* `strconv.ParseInt(s, 10, 64)` is modelled by `goParseInt` (optional sign,
  decimal digits, value must fit in a signed 64-bit integer);
* `fmt.Sprintf("%d", n)` for an `int64` is modelled by `formatInt`
  (canonical decimal representation, `-` sign for negatives);
* `time.Time` values are modelled by their Unix seconds (`time.Unix(v,0).Unix() = v`);
* Go maps are modelled by association lists, JSON frames by a record of the
  fields the client inspects, and the network / goroutine environment by
  explicit oracle parameters.
-/

/-- `48 ≤ c ≤ 57`, i.e. an ASCII decimal digit — the only digits
`strconv.ParseInt` accepts in base 10. -/
def isGoDigit (c : Char) : Bool := 48 ≤ c.toNat && c.toNat ≤ 57

/-- The decimal digit character for `d ∈ [0,9]` (callers always pass `m % 10`). -/
def digitChar (d : Nat) : Char :=
  match d with
  | 0 => '0' | 1 => '1' | 2 => '2' | 3 => '3' | 4 => '4'
  | 5 => '5' | 6 => '6' | 7 => '7' | 8 => '8' | _ => '9'

/-- Structural worker for `natToDigits`; the fuel always suffices because a
number shrinks strictly at every division by ten. -/
def natToDigitsAux : Nat → Nat → List Char
  | 0, _ => []
  | fuel + 1, m =>
    if m < 10 then [digitChar m]
    else natToDigitsAux fuel (m / 10) ++ [digitChar (m % 10)]

/-- Decimal digit string of a natural number, most significant digit first. -/
def natToDigits (m : Nat) : List Char := natToDigitsAux (m + 1) m

/-- `fmt.Sprintf("%d", n)` for an `int64` value `n`. -/
def formatInt (n : Int) : List Char :=
  if n < 0 then '-' :: natToDigits (-n).toNat else natToDigits n.toNat

/-- Numeric value of a digit string (base 10, fold from the left). -/
def digitsVal (l : List Char) : Nat :=
  l.foldl (fun a c => a * 10 + (c.toNat - 48)) 0

/-- The sign handling of `strconv.ParseInt`: strip one leading `+` or `-`,
remembering whether the value is negated. -/
def stripSign (s : List Char) : Bool × List Char :=
  match s with
  | [] => (false, [])
  | c :: rest =>
    if c = '-' then (true, rest)
    else if c = '+' then (false, rest)
    else (false, c :: rest)

/-- Digit handling of `strconv.ParseInt` after the sign has been stripped:
at least one ASCII digit and the signed value must fit in an `int64`. -/
def goParseIntCore (neg : Bool) (digits : List Char) : Option Int :=
  if digits = [] then none
  else if digits.all isGoDigit then
    let v : Int := if neg then -(digitsVal digits : Int) else (digitsVal digits : Int)
    if -(2 ^ 63) ≤ v ∧ v < 2 ^ 63 then some v else none
  else none

/-- `strconv.ParseInt(s, 10, 64)`; `none` models a non-nil error. -/
def goParseInt (s : List Char) : Option Int :=
  goParseIntCore (stripSign s).1 (stripSign s).2

/-- `strings.Split(s, sep)` for a one-character separator. -/
def splitOnChar (c : Char) : List Char → List (List Char)
  | [] => [[]]
  | x :: xs =>
    if x = c then [] :: splitOnChar c xs
    else
      match splitOnChar c xs with
      | [] => [[x]]
      | y :: ys => (x :: y) :: ys

/-- The `Timestamp` struct of the source: a `time.Time` (modelled by its Unix
seconds) plus the opaque dot-suffix the wire format carries. -/
structure Timestamp where
  seconds : Int
  uuid : List Char
deriving Repr, DecidableEq

/-- Unix seconds of Go's zero `time.Time` (the `&Timestamp{}` receiver of
`UnmarshalJSON` starts from this value). -/
def goZeroTimeUnix : Int := -62135596800

/-- `Timestamp.String()`: `"%d.%s"` of the Unix seconds and the suffix when
the suffix is nonempty, else `"%d"` of the Unix seconds. -/
def Timestamp.String (t : Timestamp) : List Char :=
  if t.uuid.length ≠ 0 then formatInt t.seconds ++ '.' :: t.uuid
  else formatInt t.seconds

/-- `Timestamp.UnmarshalJSON(data)`: strip every `"`, and if the text contains
a `.`, split on `.` and take the integer seconds from component 0 and the
suffix from component 1; afterwards (not `else`!) try to parse the whole text
as an integer.  The error result is always nil, so only the updated receiver
matters. -/
def Timestamp.unmarshalJSON (t : Timestamp) (data : List Char) : Timestamp :=
  let strValue := data.filter (· ≠ '"')
  let t1 :=
    if strValue.contains '.' then
      let components := splitOnChar '.' strValue
      match goParseInt (components.headD []) with
      | some iv => { t with seconds := iv, uuid := components.getD 1 [] }
      | none => t
    else t
  match goParseInt strValue with
  | some iv => { t1 with seconds := iv }
  | none => t1

/-- A wire timestamp string: the canonical decimal of the seconds, optionally
followed by `.` and an opaque suffix (claim C1's "seconds[.suffix]" shape). -/
def tsInput (n : Int) (suffix : Option (List Char)) : List Char :=
  match suffix with
  | none => formatInt n
  | some u => formatInt n ++ '.' :: u

/-! ### Arithmetic facts about the decimal embedding -/

theorem digitChar_toNat {d : Nat} (h : d < 10) : (digitChar d).toNat = 48 + d := by
  interval_cases d <;> rfl

theorem isGoDigit_digitChar {d : Nat} (h : d < 10) : isGoDigit (digitChar d) = true := by
  interval_cases d <;> rfl

theorem natToDigitsAux_ne_nil :
    ∀ fuel m, m < fuel → natToDigitsAux fuel m ≠ [] := by
  intro fuel
  induction fuel with
  | zero => intro m hm; omega
  | succ f _ =>
    intro m _
    unfold natToDigitsAux
    split <;> simp

theorem natToDigits_ne_nil (m : Nat) : natToDigits m ≠ [] :=
  natToDigitsAux_ne_nil (m + 1) m (by omega)

theorem natToDigitsAux_all_digit :
    ∀ fuel m, m < fuel → ∀ c ∈ natToDigitsAux fuel m, isGoDigit c = true := by
  intro fuel
  induction fuel with
  | zero => intro m hm; omega
  | succ f ih =>
    intro m hm c hc
    unfold natToDigitsAux at hc
    split at hc
    · rcases List.mem_singleton.1 hc with rfl
      exact isGoDigit_digitChar (by omega)
    · rcases List.mem_append.1 hc with hc | hc
      · exact ih (m / 10) (by omega) c hc
      · rcases List.mem_singleton.1 hc with rfl
        exact isGoDigit_digitChar (Nat.mod_lt _ (by omega))

theorem natToDigits_all_digit (m : Nat) : ∀ c ∈ natToDigits m, isGoDigit c = true :=
  natToDigitsAux_all_digit (m + 1) m (by omega)

theorem digitsVal_natToDigitsAux :
    ∀ fuel m, m < fuel → digitsVal (natToDigitsAux fuel m) = m := by
  intro fuel
  induction fuel with
  | zero => intro m hm; omega
  | succ f ih =>
    intro m hm
    unfold natToDigitsAux
    split
    · next h =>
      simp [digitsVal, digitChar_toNat h]
    · next h =>
      have hrec := ih (m / 10) (by omega)
      have hmod : m % 10 < 10 := Nat.mod_lt _ (by omega)
      simp only [digitsVal, List.foldl_append, List.foldl_cons, List.foldl_nil]
      simp only [digitsVal] at hrec
      rw [hrec, digitChar_toNat hmod]
      omega

theorem digitsVal_natToDigits (m : Nat) : digitsVal (natToDigits m) = m :=
  digitsVal_natToDigitsAux (m + 1) m (by omega)

theorem ne_of_isGoDigit {c x : Char} (h : isGoDigit c = true) (hx : isGoDigit x = false) :
    c ≠ x := by
  rintro rfl
  rw [h] at hx
  exact Bool.noConfusion hx

theorem mem_formatInt {c : Char} {n : Int} (h : c ∈ formatInt n) :
    isGoDigit c = true ∨ c = '-' := by
  unfold formatInt at h
  split at h
  · rcases List.mem_cons.1 h with rfl | hmem
    · exact Or.inr rfl
    · exact Or.inl (natToDigits_all_digit _ c hmem)
  · exact Or.inl (natToDigits_all_digit _ c h)

theorem dot_not_mem_formatInt (n : Int) : '.' ∉ formatInt n := by
  intro h
  rcases mem_formatInt h with hd | habs
  · exact absurd hd (by decide)
  · exact absurd habs (by decide)

theorem quote_not_mem_formatInt (n : Int) : '"' ∉ formatInt n := by
  intro h
  rcases mem_formatInt h with hd | habs
  · exact absurd hd (by decide)
  · exact absurd habs (by decide)

theorem stripSign_minus (r : List Char) : stripSign ('-' :: r) = (true, r) := by
  simp [stripSign]

theorem stripSign_of_head {c : Char} (h1 : c ≠ '-') (h2 : c ≠ '+') (r : List Char) :
    stripSign (c :: r) = (false, c :: r) := by
  simp [stripSign, h1, h2]

theorem goParseIntCore_pos {digits : List Char} (hne : digits ≠ [])
    (hall : ∀ c ∈ digits, isGoDigit c = true) (hrange : (digitsVal digits : Int) < 2 ^ 63) :
    goParseIntCore false digits = some (digitsVal digits : Int) := by
  unfold goParseIntCore
  rw [if_neg hne, if_pos (List.all_eq_true.2 hall)]
  simp only [Bool.false_eq_true, if_false]
  rw [if_pos ⟨by omega, hrange⟩]

theorem goParseIntCore_neg {digits : List Char} (hne : digits ≠ [])
    (hall : ∀ c ∈ digits, isGoDigit c = true) (hrange : (digitsVal digits : Int) ≤ 2 ^ 63) :
    goParseIntCore true digits = some (-(digitsVal digits : Int)) := by
  unfold goParseIntCore
  rw [if_neg hne, if_pos (List.all_eq_true.2 hall)]
  simp only [if_true]
  rw [if_pos ⟨by omega, by omega⟩]

theorem goParseIntCore_none_of_bad {digits : List Char} {x : Char} (hmem : x ∈ digits)
    (hx : isGoDigit x = false) (neg : Bool) : goParseIntCore neg digits = none := by
  unfold goParseIntCore
  rw [if_neg (by rintro rfl; exact (List.not_mem_nil _) hmem)]
  rw [if_neg]
  intro hall
  have := (List.all_eq_true.1 hall) x hmem
  rw [hx] at this
  exact Bool.noConfusion this

theorem goParseInt_formatInt {n : Int} (hlo : -(2 ^ 63) ≤ n) (hhi : n < 2 ^ 63) :
    goParseInt (formatInt n) = some n := by
  by_cases hn : n < 0
  · have hfmt : formatInt n = '-' :: natToDigits (-n).toNat := if_pos hn
    rw [goParseInt, hfmt, stripSign_minus]
    rw [goParseIntCore_neg (natToDigits_ne_nil _) (natToDigits_all_digit _)
      (by rw [digitsVal_natToDigits]; omega)]
    rw [digitsVal_natToDigits]
    congr 1
    omega
  · have hfmt : formatInt n = natToDigits n.toNat := if_neg hn
    have hne := natToDigits_ne_nil n.toNat
    obtain ⟨c, cs, hcons⟩ := List.exists_cons_of_ne_nil hne
    have hc : isGoDigit c = true := by
      apply natToDigits_all_digit n.toNat
      rw [hcons]
      exact List.mem_cons_self _ _
    rw [goParseInt, hfmt, hcons,
      stripSign_of_head (ne_of_isGoDigit hc (by decide)) (ne_of_isGoDigit hc (by decide))]
    rw [goParseIntCore_pos (by simp) (by rw [← hcons]; exact natToDigits_all_digit _)
      (by rw [← hcons, digitsVal_natToDigits]; omega)]
    rw [← hcons, digitsVal_natToDigits]
    congr 1
    omega

theorem mem_stripSign {c : Char} {s : List Char} (hc1 : c ≠ '-') (hc2 : c ≠ '+')
    (h : c ∈ s) : c ∈ (stripSign s).2 := by
  cases s with
  | nil => cases h
  | cons x rest =>
    by_cases hx1 : x = '-'
    · subst hx1
      rw [stripSign_minus]
      rcases List.mem_cons.1 h with rfl | hm
      · exact absurd rfl hc1
      · exact hm
    · by_cases hx2 : x = '+'
      · subst hx2
        rcases List.mem_cons.1 h with rfl | hm
        · exact absurd rfl hc2
        · simpa [stripSign, hx1] using hm
      · rw [stripSign_of_head hx1 hx2]
        exact h

theorem goParseInt_eq_none_of_mem_dot {s : List Char} (h : '.' ∈ s) :
    goParseInt s = none := by
  have hmem : '.' ∈ (stripSign s).2 := mem_stripSign (by decide) (by decide) h
  exact goParseIntCore_none_of_bad hmem (by decide) _

theorem splitOnChar_not_mem {c : Char} {l : List Char} (h : c ∉ l) :
    splitOnChar c l = [l] := by
  induction l with
  | nil => rfl
  | cons x xs ih =>
    have hx : x ≠ c := by rintro rfl; exact h (List.mem_cons_self _ _)
    have hxs : c ∉ xs := fun hm => h (List.mem_cons_of_mem _ hm)
    simp only [splitOnChar, if_neg hx, ih hxs]

theorem splitOnChar_append {c : Char} {a b : List Char} (h : c ∉ a) :
    splitOnChar c (a ++ c :: b) = a :: splitOnChar c b := by
  induction a with
  | nil =>
    simp [splitOnChar]
  | cons x xs ih =>
    have hx : x ≠ c := by rintro rfl; exact h (List.mem_cons_self _ _)
    have hxs : c ∉ xs := fun hm => h (List.mem_cons_of_mem _ hm)
    simp only [List.cons_append, splitOnChar, if_neg hx]
    rw [List.append_eq, ih hxs]

theorem filter_quote_eq_self {l : List Char} (h : '"' ∉ l) :
    l.filter (· ≠ '"') = l := by
  apply List.filter_eq_self.2
  intro a ha
  simp only [ne_eq, decide_eq_true_eq]
  rintro rfl
  exact h ha

theorem contains_dot_formatInt (n : Int) : (formatInt n).contains '.' = false := by
  simp only [List.contains, Bool.eq_false_iff, ne_eq]
  intro helem
  exact dot_not_mem_formatInt n (List.elem_iff.1 helem)

/-- C1: deserializing a valid `seconds[.suffix]` timestamp string via
`Timestamp.UnmarshalJSON` and serializing the result back via
`Timestamp.String` returns exactly the input, byte for byte; a suffix
(a nonempty digit string, leading zeros allowed) is preserved verbatim.
`n` is the integer seconds value (the string carries its canonical decimal
form, which is what `ParseInt` must fit into an `int64`). -/
theorem timestamp_unmarshal_string_roundtrip (n : Int) (suffix : Option (List Char))
    (hlo : -(2 ^ 63) ≤ n) (hhi : n < 2 ^ 63)
    (hsuf : ∀ u ∈ suffix, u ≠ [] ∧ ∀ c ∈ u, isGoDigit c = true) :
    (Timestamp.unmarshalJSON ⟨goZeroTimeUnix, []⟩ (tsInput n suffix)).String
      = tsInput n suffix := by
  rcases suffix with _ | u
  · -- bare `seconds` form
    show (Timestamp.unmarshalJSON ⟨goZeroTimeUnix, []⟩ (formatInt n)).String = formatInt n
    simp only [Timestamp.unmarshalJSON, filter_quote_eq_self (quote_not_mem_formatInt n),
      contains_dot_formatInt n, Bool.false_eq_true, if_false, goParseInt_formatInt hlo hhi]
    simp [Timestamp.String]
  · -- `seconds.suffix` form
    obtain ⟨hune, hudig⟩ := hsuf u rfl
    have hs : tsInput n (some u) = formatInt n ++ '.' :: u := rfl
    have hdot_u : '.' ∉ u := fun hm => by
      have := hudig '.' hm
      exact absurd this (by decide)
    have hq : '"' ∉ formatInt n ++ '.' :: u := by
      intro hm
      rcases List.mem_append.1 hm with hm | hm
      · exact quote_not_mem_formatInt n hm
      · rcases List.mem_cons.1 hm with h1 | h2
        · exact absurd h1 (by decide)
        · have := hudig '"' h2
          exact absurd this (by decide)
    have hdotmem : '.' ∈ formatInt n ++ '.' :: u :=
      List.mem_append.2 (Or.inr (List.mem_cons_self _ _))
    have hcont : (formatInt n ++ '.' :: u).contains '.' = true := by
      simp only [List.contains]
      exact List.elem_iff.2 hdotmem
    have hsplit : splitOnChar '.' (formatInt n ++ '.' :: u) = [formatInt n, u] := by
      rw [splitOnChar_append (dot_not_mem_formatInt n), splitOnChar_not_mem hdot_u]
    rw [hs]
    simp only [Timestamp.unmarshalJSON, filter_quote_eq_self hq, hcont, hsplit,
      goParseInt_eq_none_of_mem_dot hdotmem, List.headD_cons,
      goParseInt_formatInt hlo hhi]
    simp [Timestamp.String, hune]

/-- Witness for C1 at the spec's own example `"1456540321.000014"`. -/
theorem timestamp_unmarshal_string_roundtrip_witness :
    (Timestamp.unmarshalJSON ⟨goZeroTimeUnix, []⟩
        ['1', '4', '5', '6', '5', '4', '0', '3', '2', '1', '.', '0', '0', '0', '0', '1', '4']).String
      = ['1', '4', '5', '6', '5', '4', '0', '3', '2', '1', '.', '0', '0', '0', '0', '1', '4'] := by
  have h := timestamp_unmarshal_string_roundtrip 1456540321 (some ['0', '0', '0', '0', '1', '4'])
    (by norm_num) (by norm_num) (by decide)
  have he : tsInput 1456540321 (some ['0', '0', '0', '0', '1', '4'])
      = ['1', '4', '5', '6', '5', '4', '0', '3', '2', '1', '.', '0', '0', '0', '0', '1', '4'] := by
    decide
  rw [he] at h
  exact h

/-! ### Inbound frames and the two read-loop revisions

The repository carries near-duplicate historical revisions of the client.
`Rev1` embeds the revision whose `listenLoop` special-cases the
`channel_joined` kind (hoisting the nested channel payload), `Rev2` the
latest revision whose `listenLoop` sniffs type-less acknowledgment frames
and whose ping/reconnect machinery the liveness claims are about.

An inbound frame is modelled by the JSON fields the client inspects; a
field that is `none` is absent from the frame.  The modelled frames carry
no `id` field and their remaining payload is assumed well-typed — none of
the claims involves those parts. -/

/-- The `channel` field of a frame: either a nested JSON object (of which the
client only ever extracts the `id`) or a plain JSON string. -/
inductive ChannelField where
  | obj (id : List Char)
  | str (s : List Char)
deriving DecidableEq, Repr

/-- An inbound JSON frame, restricted to the fields the client inspects. -/
structure Frame where
  type? : Option (List Char)
  channel? : Option ChannelField
  ok? : Option Bool
  replyTo? : Option Int
  ts? : Option (List Char)
  text? : Option (List Char)
  user? : Option (List Char)
deriving DecidableEq, Repr

/-- `EventChannelJoined` from constants.go. -/
def EventChannelJoined : List Char := "channel_joined".data

/-- `EventMessageACK` from constants.go. -/
def EventMessageACK : List Char := "message_ack".data

/-- `EventPong` from constants.go. -/
def EventPong : List Char := "pong".data

/-- Modelled from the spec: the `MessageType` struct used by both read loops
is declared nowhere in the sources (only used); per the spec it is the
minimal kind-sniff probe — a single `type` field — exactly the role the
present `BareMessage` struct (`struct { Type Event }`) plays in the
sibling revision. -/
structure MessageType where
  type : List Char
deriving DecidableEq, Repr

/-- `json.Unmarshal(messageBytes, &mt)` into an *existing* `MessageType`
value: a present `type` field overwrites the probe, an absent one leaves the
previous contents untouched.  Both read loops declare `var mt MessageType`
outside the loop and reuse it across iterations, so the probe is threaded
through the loop as state.  (For the modelled frames, whose `type` is a
string when present, this decode never fails.) -/
def unmarshalMessageType (mt : MessageType) (f : Frame) : MessageType :=
  match f.type? with
  | some t => ⟨t⟩
  | none => mt

namespace Rev1

/-- The `Channel` struct, restricted to the `id` field: the read loop copies
only `cm.Channel.ID` into the dispatched envelope, so the remaining fields
of the source struct cannot influence any claim. -/
structure Channel where
  id : List Char
deriving DecidableEq, Repr

/-- The `ChannelJoinedMessage` struct: `{Type Event; Channel Channel}`. -/
structure ChannelJoinedMessage where
  type : List Char
  channel : Channel
deriving DecidableEq, Repr

/-- This revision's `Message` struct: ID, Type, SubType, Hidden, Timestamp,
Channel (a plain string), User, Text. -/
structure Message where
  id : List Char
  type : List Char
  subType : List Char
  hidden : Bool
  ts : Option (List Char)
  channel : List Char
  user : List Char
  text : List Char
deriving DecidableEq, Repr

/-- The zero value of `Message` (what `&Message{...}` leaves unset). -/
def zeroMessage : Message :=
  { id := [], type := [], subType := [], hidden := false, ts := none,
    channel := [], user := [], text := [] }

/-- `json.Unmarshal` into `ChannelJoinedMessage`: fails iff the `channel`
field is a plain string (Go cannot unmarshal a string into the `Channel`
struct); a missing `channel` decodes to the zero struct. -/
def decodeChannelJoined (f : Frame) : Except Unit ChannelJoinedMessage :=
  match f.channel? with
  | some (.str _) => .error ()
  | some (.obj cid) => .ok ⟨f.type?.getD [], ⟨cid⟩⟩
  | none => .ok ⟨f.type?.getD [], ⟨[]⟩⟩

/-- `json.Unmarshal` into this revision's `Message`: fails iff the `channel`
field is a nested object (Go cannot unmarshal an object into a string). -/
def decodeMessage (f : Frame) : Except Unit Message :=
  match f.channel? with
  | some (.obj _) => .error ()
  | some (.str s) =>
    .ok { id := [], type := f.type?.getD [], subType := [], hidden := false,
          ts := f.ts?, channel := s, user := f.user?.getD [], text := f.text?.getD [] }
  | none =>
    .ok { id := [], type := f.type?.getD [], subType := [], hidden := false,
          ts := f.ts?, channel := [], user := f.user?.getD [], text := f.text?.getD [] }

/-- One iteration of this revision's `listenLoop` (client_test.go 726–766)
on a read frame, with the reused `mt` probe threaded as state: unmarshal the
kind probe; on `channel_joined` decode the richer `ChannelJoinedMessage` and
dispatch a synthesized flat envelope carrying the nested channel's id;
otherwise decode and dispatch the plain `Message`.  Returns the probe as
left for the next iteration and the message handed to `dispatch` (`none`
when the frame is dropped).  The loop also reuses `cm` and `m` across
iterations; the `channel_joined` branch overwrites every `cm` field it
reads for the frames representable in `Frame` (type and channel id both
present), so those decodes are written per frame — no claim exercises the
default branch's field retention. -/
def listenLoopStep (mt : MessageType) (f : Frame) : MessageType × Option Message :=
  let mt1 := unmarshalMessageType mt f
  if mt1.type = EventChannelJoined then
    match decodeChannelJoined f with
    | .ok cm => (mt1, some { zeroMessage with type := EventChannelJoined, channel := cm.channel.id })
    | .error _ => (mt1, none)
  else
    match decodeMessage f with
    | .ok m => (mt1, some m)
    | .error _ => (mt1, none)

end Rev1

/-- C2: a frame with `type: "channel_joined"` and a nested channel object
with id `c` is dispatched as the flat synthesized envelope whose kind is
`channel_joined` and whose channel field is `c` (all other fields zero) —
the nested payload is hoisted, not passed through.  The frame's `type`
field is present, so the conclusion holds whatever the reused probe `mt`
holds from earlier iterations. -/
theorem listenLoop_channel_joined_hoisted (mt : MessageType) (f : Frame) (cid : List Char)
    (htype : f.type? = some EventChannelJoined)
    (hchan : f.channel? = some (ChannelField.obj cid)) :
    (Rev1.listenLoopStep mt f).2
      = some { Rev1.zeroMessage with type := EventChannelJoined, channel := cid } := by
  unfold Rev1.listenLoopStep
  simp only [unmarshalMessageType, htype, if_pos rfl]
  simp [Rev1.decodeChannelJoined, hchan]

/-- Witness for C2 at a concrete frame with channel id `"C123"`, with a
stale probe left over from a previous "hello" frame. -/
theorem listenLoop_channel_joined_hoisted_witness :
    (Rev1.listenLoopStep ⟨"hello".data⟩
        ⟨some EventChannelJoined, some (ChannelField.obj "C123".data), none, none, none, none, none⟩).2
      = some { Rev1.zeroMessage with type := EventChannelJoined, channel := "C123".data } :=
  listenLoop_channel_joined_hoisted ⟨"hello".data⟩ _ _ rfl rfl

namespace Rev2

/-- Modelled from the spec: the latest revision's `Message` struct is not
declared in the sources (only used).  Per the spec's Event Envelope it is the
common envelope shape — kind tag, optional channel id, optional user id,
optional text, optional timestamp, the ack success flag (`OK *bool`, `nil`
when the `ok` field is absent) and the reply-to ping id (`ReplyTo int64`,
zero when absent).  The timestamp is carried opaquely. -/
structure Message where
  type : List Char
  channel : List Char
  user : List Char
  text : List Char
  ts : Option (List Char)
  replyTo : Int
  ok : Option Bool
deriving DecidableEq, Repr

/-- The zero value of this revision's `Message`. -/
def zeroMessage : Message :=
  { type := [], channel := [], user := [], text := [], ts := none,
    replyTo := 0, ok := none }

/-- `json.Unmarshal` into this revision's `Message`: fails iff the `channel`
field is a nested object; absent fields decode to their zero values, the
`ok` flag to a nil pointer. -/
def decodeMessage (f : Frame) : Except Unit Message :=
  match f.channel? with
  | some (.obj _) => .error ()
  | some (.str s) =>
    .ok { type := f.type?.getD [], channel := s, user := f.user?.getD [],
          text := f.text?.getD [], ts := f.ts?, replyTo := f.replyTo?.getD 0,
          ok := f.ok? }
  | none =>
    .ok { type := f.type?.getD [], channel := [], user := f.user?.getD [],
          text := f.text?.getD [], ts := f.ts?, replyTo := f.replyTo?.getD 0,
          ok := f.ok? }

/-- One iteration of the latest `listenLoop` (client_test.go 334–365) on a
read frame, with the reused `mt` probe threaded as state (`var mt
MessageType` is declared outside the loop; `m := Message{}` is fresh each
iteration): unmarshal the probe and the full `Message`; when the probe's
kind is empty and the success flag is present ("special situation where
acks don't have types and we have to sniff"), dispatch a synthesized
`EventMessageACK` envelope carrying the reply-to id, timestamp and text;
otherwise dispatch the decoded message.  Because a type-less frame leaves
the probe holding the previous frame's type, the ack sniff can fire only
while no typed frame has been decoded since the loop started. -/
def listenLoopStep (mt : MessageType) (f : Frame) : MessageType × Option Message :=
  let mt1 := unmarshalMessageType mt f
  match decodeMessage f with
  | .error _ => (mt1, none)
  | .ok m =>
    if mt1.type.length = 0 ∧ m.ok ≠ none then
      (mt1, some { zeroMessage with type := EventMessageACK, replyTo := m.replyTo, ts := m.ts, text := m.text })
    else (mt1, some m)

end Rev2

/-- C3: the source contradicts its own intent here (a code bug).  The
comment at the sniff — "special situation where acks don't have types and
we have to sniff" — and the existence of `EventMessageACK` call for every
type-less ok/reply_to frame to be dispatched as a synthesized ack envelope,
but `var mt MessageType` is declared outside the read loop and
`json.Unmarshal` leaves absent fields untouched, so after any typed frame
(the server's first frame, "hello", always is one) the probe is no longer
empty, the `len(mt.Type) == 0` guard fails, and the ack frame is dispatched
as the plain decoded message with an empty kind.  Concretely: after a
"hello" frame, the probe holds "hello", and the subsequent type-less frame
with `reply_to: 42` is dispatched as the plain message — whose kind is not
`EventMessageACK`. -/
theorem listenLoop_ack_sniffing_stale_probe :
    (Rev2.listenLoopStep ⟨[]⟩ ⟨some "hello".data, none, none, none, none, none, none⟩).1
      = ⟨"hello".data⟩
    ∧ (Rev2.listenLoopStep ⟨"hello".data⟩
        ⟨none, none, some true, some 42, some "1456540321.000014".data, some "ok".data, none⟩).2
      = some { Rev2.zeroMessage with text := "ok".data, ts := some "1456540321.000014".data, replyTo := 42, ok := some true }
    ∧ ({ Rev2.zeroMessage with text := "ok".data, ts := some "1456540321.000014".data, replyTo := 42, ok := some true } : Rev2.Message).type
      ≠ EventMessageACK :=
  ⟨rfl, rfl, by decide⟩

/-- Result of one spawned goroutine: an unrecovered panic crashes the whole
process, a recovered one merely ends the goroutine. -/
inductive GoroutineResult where
  | completed
  | crashed
deriving DecidableEq, Repr

/-- What a listener body does when invoked. -/
inductive ListenerBehavior where
  | ok
  | panics (msg : List Char)

/-- Run one goroutine: a panicking body crashes the process unless the
goroutine installed a `defer`red `recover` (which logs and swallows it). -/
def runGoroutine (hasRecoverDefer : Bool) (b : ListenerBehavior) : GoroutineResult :=
  match b with
  | .ok => .completed
  | .panics _ => if hasRecoverDefer then .completed else .crashed

namespace Rev2

/-- The latest revision's `Client` struct.  Listeners are identified by
abstract ids (their behavior is an environment parameter of `dispatch`);
the `EventListeners` map and the `pingInFlight` map are association lists;
the socket is an abstract handle.  The mutexes guard fields that are
modelled by explicit state passing and need no counterpart. -/
structure Client where
  Token : List Char
  EventListeners : List (List Char × List Nat)
  ActiveChannels : List (List Char)
  socketConnection : Option Nat
  pingTimeout : Int
  pingMaxInFlight : Nat
  pingMaxFails : Nat
  pingFails : Nat
  pingInFlight : List (Int × Int)
  pingInterval : Int
  isDebug : Bool

/-- `dispatch(m)`: look up the listeners registered under the envelope's
kind and spawn one goroutine per listener; each goroutine installs a
`defer`red `recover`, so a panicking listener is logged and swallowed.
Returns the spawned goroutines with their results. -/
def dispatch (c : Client) (env : Nat → ListenerBehavior) (m : Message) :
    List (Nat × GoroutineResult) :=
  match List.lookup m.type c.EventListeners with
  | some listeners => listeners.map (fun l => (l, runGoroutine true (env l)))
  | none => []

/-- The stream of envelopes the `listenLoop` hands to `dispatch` over a list
of read frames, threading the reused `mt` probe. -/
def listenLoopEnvelopes : MessageType → List Frame → List Message
  | _, [] => []
  | mt, f :: rest =>
    match (listenLoopStep mt f).2 with
    | none => listenLoopEnvelopes (listenLoopStep mt f).1 rest
    | some m => m :: listenLoopEnvelopes (listenLoopStep mt f).1 rest

/-- The `listenLoop` over a stream of already-read frames: decode and
dispatch each frame in order, threading the reused `mt` probe.  An
undecodable frame is dropped and the loop continues; if any spawned
listener goroutine crashed the process (possible only without the
`recover`), no further frame is processed. -/
def listenLoopRun (c : Client) (env : Nat → ListenerBehavior) :
    MessageType → List Frame → List (Message × List (Nat × GoroutineResult))
  | _, [] => []
  | mt, f :: rest =>
    match (listenLoopStep mt f).2 with
    | none => listenLoopRun c env (listenLoopStep mt f).1 rest
    | some m =>
      let spawned := dispatch c env m
      if spawned.any (fun p => p.2 = GoroutineResult.crashed) then [(m, spawned)]
      else (m, spawned) :: listenLoopRun c env (listenLoopStep mt f).1 rest

end Rev2

/-- C7: for every dispatched envelope every listener registered under its
kind is invoked, each spawned goroutine completes even when its listener
panics (the `defer`red `recover` catches and reports it), and therefore a
failing listener neither prevents its siblings from being invoked nor stops
the read loop: the loop processes every decodable frame whatever the
listener behaviors are. -/
theorem dispatch_isolates_listener_failures (c : Rev2.Client)
    (env : Nat → ListenerBehavior) (mt : MessageType) (frames : List Frame) :
    (∀ m : Rev2.Message,
        Rev2.dispatch c env m
          = ((List.lookup m.type c.EventListeners).getD []).map
              (fun l => (l, GoroutineResult.completed)))
    ∧ Rev2.listenLoopRun c env mt frames
        = (Rev2.listenLoopEnvelopes mt frames).map
            (fun m => (m, Rev2.dispatch c env m)) := by
  have hrun : ∀ b, runGoroutine true b = GoroutineResult.completed := by
    intro b
    cases b <;> rfl
  have hdisp : ∀ m : Rev2.Message,
      Rev2.dispatch c env m
        = ((List.lookup m.type c.EventListeners).getD []).map
            (fun l => (l, GoroutineResult.completed)) := by
    intro m
    unfold Rev2.dispatch
    cases List.lookup m.type c.EventListeners with
    | none => rfl
    | some listeners =>
      simp only [Option.getD_some]
      exact List.map_congr_left (fun l _ => by rw [hrun])
  refine ⟨hdisp, ?_⟩
  induction frames generalizing mt with
  | nil => rfl
  | cons f rest ih =>
    unfold Rev2.listenLoopRun Rev2.listenLoopEnvelopes
    cases hstep : (Rev2.listenLoopStep mt f).2 with
    | none =>
      simp only [hstep]
      exact ih _
    | some m =>
      have hnocrash :
          (Rev2.dispatch c env m).any (fun p => p.2 = GoroutineResult.crashed) = false := by
        rw [hdisp m]
        simp [List.any_map]
      simp only [hstep, hnocrash, Bool.false_eq_true, if_false, List.map_cons]
      rw [ih]

namespace Rev2

/-- Outcome of the external world during one `cycleConnection` call: the
`rtm.start` handshake (transport error and HTTP status), URL parsing, and
the websocket dial (`none` models a failed `Dial`, which leaves a nil
connection and returns an error). -/
structure CycleOutcome where
  fetchErr : Bool
  statusCode : Nat
  urlParseErr : Bool
  dialConn : Option Nat

/-- `cycleConnection()`: re-run the `rtm.start` handshake; on a transport
error or a status above 200 return the error with the state untouched;
otherwise reset `pingInFlight` to a fresh empty map and `pingFails` to zero,
then parse the returned URL and dial, replacing `socketConnection` with the
dial result.  Returns the updated client and whether an error was
returned. -/
def cycleConnection (c : Client) (o : CycleOutcome) : Client × Bool :=
  if o.fetchErr then (c, true)
  else if 200 < o.statusCode then (c, true)
  else
    let c1 := { c with pingInFlight := [], pingFails := 0 }
    if o.urlParseErr then (c1, true)
    else ({ c1 with socketConnection := o.dialConn }, o.dialConn.isNone)

end Rev2

/-- C4: a reconnect (`cycleConnection`) whose handshake succeeds leaves the
listener registry and the active-channel set (and the token and every ping
configuration field) unchanged, resets the in-flight ping map to empty and
the ping-failure counter to zero, and replaces only the transport
connection handle (with the dial result). -/
theorem cycleConnection_preserves_registries (c : Rev2.Client) (o : Rev2.CycleOutcome)
    (hfetch : o.fetchErr = false) (hstatus : o.statusCode ≤ 200)
    (hurl : o.urlParseErr = false) :
    (Rev2.cycleConnection c o).1.EventListeners = c.EventListeners
    ∧ (Rev2.cycleConnection c o).1.ActiveChannels = c.ActiveChannels
    ∧ (Rev2.cycleConnection c o).1.Token = c.Token
    ∧ (Rev2.cycleConnection c o).1.pingTimeout = c.pingTimeout
    ∧ (Rev2.cycleConnection c o).1.pingMaxInFlight = c.pingMaxInFlight
    ∧ (Rev2.cycleConnection c o).1.pingMaxFails = c.pingMaxFails
    ∧ (Rev2.cycleConnection c o).1.pingInterval = c.pingInterval
    ∧ (Rev2.cycleConnection c o).1.pingInFlight = []
    ∧ (Rev2.cycleConnection c o).1.pingFails = 0
    ∧ (Rev2.cycleConnection c o).1.socketConnection = o.dialConn := by
  unfold Rev2.cycleConnection
  rw [if_neg (by simp [hfetch]), if_neg (by omega), if_neg (by simp [hurl])]
  simp

/-- Witness for C4 at a concrete client and a successful handshake. -/
theorem cycleConnection_preserves_registries_witness :
    (Rev2.cycleConnection
        { Token := "tok".data,
          EventListeners := [("message".data, [0, 1]), (EventPong, [2])],
          ActiveChannels := ["C1".data, "C2".data],
          socketConnection := some 7, pingTimeout := 30, pingMaxInFlight := 5,
          pingMaxFails := 5, pingFails := 3, pingInFlight := [(1, 10), (2, 20)],
          pingInterval := 30, isDebug := true }
        ⟨false, 200, false, some 8⟩).1.EventListeners
      = [("message".data, [0, 1]), (EventPong, [2])]
    ∧ (Rev2.cycleConnection
        { Token := "tok".data,
          EventListeners := [("message".data, [0, 1]), (EventPong, [2])],
          ActiveChannels := ["C1".data, "C2".data],
          socketConnection := some 7, pingTimeout := 30, pingMaxInFlight := 5,
          pingMaxFails := 5, pingFails := 3, pingInFlight := [(1, 10), (2, 20)],
          pingInterval := 30, isDebug := true }
        ⟨false, 200, false, some 8⟩).1.ActiveChannels
      = ["C1".data, "C2".data]
    ∧ (Rev2.cycleConnection
        { Token := "tok".data,
          EventListeners := [("message".data, [0, 1]), (EventPong, [2])],
          ActiveChannels := ["C1".data, "C2".data],
          socketConnection := some 7, pingTimeout := 30, pingMaxInFlight := 5,
          pingMaxFails := 5, pingFails := 3, pingInFlight := [(1, 10), (2, 20)],
          pingInterval := 30, isDebug := true }
        ⟨false, 200, false, some 8⟩).1.pingInFlight
      = []
    ∧ (Rev2.cycleConnection
        { Token := "tok".data,
          EventListeners := [("message".data, [0, 1]), (EventPong, [2])],
          ActiveChannels := ["C1".data, "C2".data],
          socketConnection := some 7, pingTimeout := 30, pingMaxInFlight := 5,
          pingMaxFails := 5, pingFails := 3, pingInFlight := [(1, 10), (2, 20)],
          pingInterval := 30, isDebug := true }
        ⟨false, 200, false, some 8⟩).1.socketConnection
      = some 8 := by
  have h := cycleConnection_preserves_registries
    { Token := "tok".data,
      EventListeners := [("message".data, [0, 1]), (EventPong, [2])],
      ActiveChannels := ["C1".data, "C2".data],
      socketConnection := some 7, pingTimeout := 30, pingMaxInFlight := 5,
      pingMaxFails := 5, pingFails := 3, pingInFlight := [(1, 10), (2, 20)],
      pingInterval := 30, isDebug := true }
    ⟨false, 200, false, some 8⟩ rfl (by norm_num) rfl
  exact ⟨h.1, h.2.1, h.2.2.2.2.2.2.2.1, h.2.2.2.2.2.2.2.2.2⟩

/-- Go map assignment `m[k] = v` on an association list: overwrite the entry
if the key is present, otherwise add one. -/
def mapSet (l : List (Int × Int)) (k v : Int) : List (Int × Int) :=
  if l.any (fun p => p.1 = k) then l.map (fun p => if p.1 = k then (k, v) else p)
  else l ++ [(k, v)]

namespace Rev2

/-- `Ping()`: error out if no connection is open; otherwise build the ping
frame with id `time.Now().UTC().UnixNano()`, dispatch it to any "ping"
listeners (which mutates no client state), record
`pingInFlight[id] = time.Now().UTC()` and write the frame.  The single
`now` parameter stands for all the `time.Now()` calls of the one tick (their
sub-microsecond differences play no role in any claim); `writeOk` is the
websocket write outcome.  Returns the updated client and whether an error
was returned. -/
def Ping (c : Client) (now : Int) (writeOk : Bool) : Client × Bool :=
  match c.socketConnection with
  | none => (c, true)
  | some _ => ({ c with pingInFlight := mapSet c.pingInFlight now now }, !writeOk)

/-- The second loop of `doPing` (lines 280–287): iterate over the snapshot
of `pingInFlight` taken when the `range` started — reassigning the field
inside `cycleConnection` does not affect this iteration — and cycle the
connection once for every entry whose age reached `pingTimeout`.  `k`
indexes the oracle of successive `cycleConnection` outcomes; errors are only
logged. -/
def stalePass (now : Int) (outs : Nat → CycleOutcome) :
    List (Int × Int) → Client → Nat → Client × Nat
  | [], c, k => (c, k)
  | e :: rest, c, k =>
    if c.pingTimeout ≤ now - e.2 then
      stalePass now outs rest (cycleConnection c (outs k)).1 (k + 1)
    else stalePass now outs rest c k

/-- The result of one `doPing` tick: the final client, whether a new ping
frame was issued, and how many times `cycleConnection` was invoked. -/
structure DoPingResult where
  client : Client
  pingSent : Bool
  cycles : Nat

/-- The first step of `doPing` (lines 268–277): if fewer than
`pingMaxInFlight` pings are outstanding, `Ping()`; if that errors (closed
connection or failed write), cycle the connection.  Returns the updated
client, whether a new ping frame was issued, and how many `cycleConnection`
calls happened (consuming oracle index 0). -/
def pingPhase1 (c : Client) (now : Int) (writeOk : Bool) (outs : Nat → CycleOutcome) :
    Client × Bool × Nat :=
  if c.pingInFlight.length < c.pingMaxInFlight then
    match c.socketConnection with
    | none => ((cycleConnection c (outs 0)).1, false, 1)
    | some _ =>
      let c1 := { c with pingInFlight := mapSet c.pingInFlight now now }
      if writeOk then (c1, true, 0)
      else ((cycleConnection c1 (outs 0)).1, true, 1)
  else (c, false, 0)

/-- One tick of the liveness monitor, `doPing()` (lines 263–295):
1. if fewer than `pingMaxInFlight` pings are outstanding, `Ping()`; if that
   errors, cycle the connection;
2. for every snapshot entry whose age reached `pingTimeout`, cycle the
   connection;
3. prune every entry of the *current* map whose age reached `pingTimeout`. -/
def doPing (c : Client) (now : Int) (writeOk : Bool) (outs : Nat → CycleOutcome) :
    DoPingResult :=
  let step1 := pingPhase1 c now writeOk outs
  let c1 := step1.1
  let after2 := stalePass now outs c1.pingInFlight c1 step1.2.2
  let c2 := after2.1
  let c3 := { c2 with pingInFlight := c2.pingInFlight.filter (fun e => decide (now - e.2 < c2.pingTimeout)) }
  ⟨c3, step1.2.1, after2.2⟩

end Rev2

/-! ### Lemmas about the ping machinery -/

theorem mapSet_length_le (l : List (Int × Int)) (k v : Int) :
    (mapSet l k v).length ≤ l.length + 1 := by
  unfold mapSet
  split
  · simp
  · simp

theorem mem_mapSet_of_ne {e : Int × Int} {l : List (Int × Int)} {k v : Int}
    (he : e ∈ l) (hne : e.1 ≠ k) : e ∈ mapSet l k v := by
  unfold mapSet
  split
  · exact List.mem_map.2 ⟨e, he, by simp [hne]⟩
  · exact List.mem_append_left _ he

theorem cycleConnection_pingTimeout (c : Rev2.Client) (o : Rev2.CycleOutcome) :
    (Rev2.cycleConnection c o).1.pingTimeout = c.pingTimeout := by
  unfold Rev2.cycleConnection
  split
  · rfl
  · split
    · rfl
    · split <;> rfl

theorem cycleConnection_pingInFlight_cases (c : Rev2.Client) (o : Rev2.CycleOutcome) :
    (Rev2.cycleConnection c o).1.pingInFlight = c.pingInFlight
    ∨ (Rev2.cycleConnection c o).1.pingInFlight = [] := by
  unfold Rev2.cycleConnection
  split
  · exact Or.inl rfl
  · split
    · exact Or.inl rfl
    · split
      · exact Or.inr rfl
      · exact Or.inr rfl

theorem cycleConnection_good_pingInFlight (c : Rev2.Client) (o : Rev2.CycleOutcome)
    (hfetch : o.fetchErr = false) (hstatus : o.statusCode ≤ 200) :
    (Rev2.cycleConnection c o).1.pingInFlight = [] := by
  unfold Rev2.cycleConnection
  rw [if_neg (by simp [hfetch]), if_neg (by omega)]
  split <;> rfl

theorem stalePass_pingTimeout (now : Int) (outs : Nat → Rev2.CycleOutcome) :
    ∀ (l : List (Int × Int)) (c : Rev2.Client) (k : Nat),
      (Rev2.stalePass now outs l c k).1.pingTimeout = c.pingTimeout := by
  intro l
  induction l with
  | nil => intro c k; rfl
  | cons e rest ih =>
    intro c k
    unfold Rev2.stalePass
    split
    · rw [ih, cycleConnection_pingTimeout]
    · exact ih c k

theorem stalePass_k_le (now : Int) (outs : Nat → Rev2.CycleOutcome) :
    ∀ (l : List (Int × Int)) (c : Rev2.Client) (k : Nat),
      k ≤ (Rev2.stalePass now outs l c k).2 := by
  intro l
  induction l with
  | nil => intro c k; exact Nat.le_refl k
  | cons e rest ih =>
    intro c k
    unfold Rev2.stalePass
    split
    · exact Nat.le_trans (Nat.le_succ k) (ih _ _)
    · exact ih c k

theorem stalePass_pingInFlight_nil (now : Int) (outs : Nat → Rev2.CycleOutcome) :
    ∀ (l : List (Int × Int)) (c : Rev2.Client) (k : Nat),
      c.pingInFlight = [] → (Rev2.stalePass now outs l c k).1.pingInFlight = [] := by
  intro l
  induction l with
  | nil => intro c k h; exact h
  | cons e rest ih =>
    intro c k h
    unfold Rev2.stalePass
    split
    · apply ih
      rcases cycleConnection_pingInFlight_cases c (outs k) with hc | hc
      · rw [hc, h]
      · exact hc
    · exact ih c k h

theorem stalePass_length_le (now : Int) (outs : Nat → Rev2.CycleOutcome) (N : Nat) :
    ∀ (l : List (Int × Int)) (c : Rev2.Client) (k : Nat),
      c.pingInFlight.length ≤ N → (Rev2.stalePass now outs l c k).1.pingInFlight.length ≤ N := by
  intro l
  induction l with
  | nil => intro c k h; exact h
  | cons e rest ih =>
    intro c k h
    unfold Rev2.stalePass
    split
    · apply ih
      rcases cycleConnection_pingInFlight_cases c (outs k) with hc | hc
      · rw [hc]; exact h
      · rw [hc]; exact Nat.zero_le N
    · exact ih c k h

theorem stalePass_stale (now : Int) (outs : Nat → Rev2.CycleOutcome)
    (houts : ∀ k, (outs k).fetchErr = false ∧ (outs k).statusCode ≤ 200) :
    ∀ (l : List (Int × Int)) (c : Rev2.Client) (k : Nat),
      (∃ e ∈ l, c.pingTimeout ≤ now - e.2) →
      k < (Rev2.stalePass now outs l c k).2
      ∧ (Rev2.stalePass now outs l c k).1.pingInFlight = [] := by
  intro l
  induction l with
  | nil =>
    intro c k h
    exact absurd h (by simp)
  | cons e rest ih =>
    intro c k h
    unfold Rev2.stalePass
    by_cases hstale : c.pingTimeout ≤ now - e.2
    · rw [if_pos hstale]
      constructor
      · exact Nat.lt_of_lt_of_le (Nat.lt_succ_self k) (stalePass_k_le now outs _ _ _)
      · apply stalePass_pingInFlight_nil
        exact cycleConnection_good_pingInFlight c (outs k) (houts k).1 (houts k).2
    · rw [if_neg hstale]
      apply ih
      obtain ⟨x, hx, hxs⟩ := h
      rcases List.mem_cons.1 hx with rfl | hx
      · exact absurd hxs hstale
      · exact ⟨x, hx, hxs⟩

theorem pingPhase1_pingTimeout (c : Rev2.Client) (now : Int) (writeOk : Bool)
    (outs : Nat → Rev2.CycleOutcome) :
    (Rev2.pingPhase1 c now writeOk outs).1.pingTimeout = c.pingTimeout := by
  unfold Rev2.pingPhase1
  by_cases hlt : c.pingInFlight.length < c.pingMaxInFlight
  · rw [if_pos hlt]
    cases hsock : c.socketConnection with
    | none => exact cycleConnection_pingTimeout _ _
    | some conn =>
      by_cases hw : writeOk
      · simp [hw]
      · simp only [if_neg hw, Bool.false_eq_true]
        exact cycleConnection_pingTimeout _ _
  · rw [if_neg hlt]

theorem pingPhase1_length_le (c : Rev2.Client) (now : Int) (writeOk : Bool)
    (outs : Nat → Rev2.CycleOutcome)
    (hinv : c.pingInFlight.length ≤ c.pingMaxInFlight) :
    (Rev2.pingPhase1 c now writeOk outs).1.pingInFlight.length ≤ c.pingMaxInFlight := by
  unfold Rev2.pingPhase1
  by_cases hlt : c.pingInFlight.length < c.pingMaxInFlight
  · rw [if_pos hlt]
    cases hsock : c.socketConnection with
    | none =>
      rcases cycleConnection_pingInFlight_cases c (outs 0) with hc | hc
      · simp only [hc]; exact hinv
      · simp only [hc]; exact Nat.zero_le _
    | some conn =>
      by_cases hw : writeOk
      · simp only [if_pos hw]
        exact Nat.le_trans (mapSet_length_le _ _ _) (by omega)
      · simp only [if_neg hw, Bool.false_eq_true]
        rw [← hsock]
        show (Rev2.cycleConnection
            { c with pingInFlight := mapSet c.pingInFlight now now } (outs 0)).1.pingInFlight.length
          ≤ c.pingMaxInFlight
        rcases cycleConnection_pingInFlight_cases
            { c with pingInFlight := mapSet c.pingInFlight now now } (outs 0) with hc | hc
        · rw [hc]
          exact Nat.le_trans (mapSet_length_le _ _ _) (by omega)
        · rw [hc]; exact Nat.zero_le _
  · rw [if_neg hlt]
    exact hinv

theorem pingPhase1_sent_lt (c : Rev2.Client) (now : Int) (writeOk : Bool)
    (outs : Nat → Rev2.CycleOutcome)
    (hsent : (Rev2.pingPhase1 c now writeOk outs).2.1 = true) :
    c.pingInFlight.length < c.pingMaxInFlight := by
  by_contra hlt
  unfold Rev2.pingPhase1 at hsent
  rw [if_neg hlt] at hsent
  exact Bool.noConfusion hsent

theorem pingPhase1_no_send_at_max (c : Rev2.Client) (now : Int) (writeOk : Bool)
    (outs : Nat → Rev2.CycleOutcome)
    (hmax : c.pingInFlight.length = c.pingMaxInFlight) :
    (Rev2.pingPhase1 c now writeOk outs).2.1 = false := by
  unfold Rev2.pingPhase1
  rw [if_neg (by omega)]

theorem pingPhase1_stale (c : Rev2.Client) (now : Int) (writeOk : Bool)
    (outs : Nat → Rev2.CycleOutcome)
    (houts : ∀ k, (outs k).fetchErr = false ∧ (outs k).statusCode ≤ 200)
    (hstale : ∃ e ∈ c.pingInFlight, e.1 ≠ now ∧ c.pingTimeout ≤ now - e.2) :
    (∃ e ∈ (Rev2.pingPhase1 c now writeOk outs).1.pingInFlight, c.pingTimeout ≤ now - e.2)
    ∨ ((Rev2.pingPhase1 c now writeOk outs).1.pingInFlight = []
        ∧ 1 ≤ (Rev2.pingPhase1 c now writeOk outs).2.2) := by
  obtain ⟨e, he, hne, hstale'⟩ := hstale
  unfold Rev2.pingPhase1
  by_cases hlt : c.pingInFlight.length < c.pingMaxInFlight
  · rw [if_pos hlt]
    cases hsock : c.socketConnection with
    | none =>
      right
      exact ⟨cycleConnection_good_pingInFlight _ _ (houts 0).1 (houts 0).2, Nat.le_refl 1⟩
    | some conn =>
      by_cases hw : writeOk
      · left
        simp only [if_pos hw]
        exact ⟨e, mem_mapSet_of_ne he hne, hstale'⟩
      · right
        simp only [if_neg hw, Bool.false_eq_true]
        exact ⟨cycleConnection_good_pingInFlight _ _ (houts 0).1 (houts 0).2, Nat.le_refl 1⟩
  · rw [if_neg hlt]
    exact Or.inl ⟨e, he, hstale'⟩

/-- C6 (and the liveness bound): a new ping is sent on a tick only if the
number of outstanding pings is strictly below `pingMaxInFlight`; a tick that
starts with `pingMaxInFlight` outstanding pings sends none; and a tick
preserves the bound `|pingInFlight| ≤ pingMaxInFlight`. -/
theorem doPing_respects_max_in_flight (c : Rev2.Client) (now : Int) (writeOk : Bool)
    (outs : Nat → Rev2.CycleOutcome)
    (hinv : c.pingInFlight.length ≤ c.pingMaxInFlight) :
    ((Rev2.doPing c now writeOk outs).pingSent = true →
        c.pingInFlight.length < c.pingMaxInFlight)
    ∧ (c.pingInFlight.length = c.pingMaxInFlight →
        (Rev2.doPing c now writeOk outs).pingSent = false)
    ∧ (Rev2.doPing c now writeOk outs).client.pingInFlight.length ≤ c.pingMaxInFlight := by
  refine ⟨?_, ?_, ?_⟩
  · intro hsent
    exact pingPhase1_sent_lt c now writeOk outs hsent
  · intro hmax
    exact pingPhase1_no_send_at_max c now writeOk outs hmax
  · show ((Rev2.stalePass now outs (Rev2.pingPhase1 c now writeOk outs).1.pingInFlight
        (Rev2.pingPhase1 c now writeOk outs).1
        (Rev2.pingPhase1 c now writeOk outs).2.2).1.pingInFlight.filter _).length
      ≤ c.pingMaxInFlight
    exact Nat.le_trans (List.length_filter_le _ _)
      (stalePass_length_le now outs c.pingMaxInFlight _ _ _
        (pingPhase1_length_le c now writeOk outs hinv))

/-- Witness for C6 at a client already holding `pingMaxInFlight = 2`
outstanding pings: the tick sends no ping and keeps the bound. -/
theorem doPing_respects_max_in_flight_witness :
    (Rev2.doPing
        { Token := [], EventListeners := [], ActiveChannels := [],
          socketConnection := some 0, pingTimeout := 30, pingMaxInFlight := 2,
          pingMaxFails := 5, pingFails := 0, pingInFlight := [(1, 50), (2, 60)],
          pingInterval := 30, isDebug := false }
        60 true (fun _ => ⟨false, 200, false, some 1⟩)).pingSent = false
    ∧ (Rev2.doPing
        { Token := [], EventListeners := [], ActiveChannels := [],
          socketConnection := some 0, pingTimeout := 30, pingMaxInFlight := 2,
          pingMaxFails := 5, pingFails := 0, pingInFlight := [(1, 50), (2, 60)],
          pingInterval := 30, isDebug := false }
        60 true (fun _ => ⟨false, 200, false, some 1⟩)).client.pingInFlight.length ≤ 2 := by
  have h := doPing_respects_max_in_flight
    { Token := [], EventListeners := [], ActiveChannels := [],
      socketConnection := some 0, pingTimeout := 30, pingMaxInFlight := 2,
      pingMaxFails := 5, pingFails := 0, pingInFlight := [(1, 50), (2, 60)],
      pingInterval := 30, isDebug := false }
    60 true (fun _ => ⟨false, 200, false, some 1⟩) (by decide)
  exact ⟨h.2.1 (by decide), h.2.2⟩

/-- C5 (amended): when some outstanding ping's age has reached `pingTimeout`
and the reconnect handshakes succeed, the tick triggers at least one
reconnect and ends with an empty in-flight map (which is what prevents
re-triggering on *later* ticks).  The hypothesis `e.1 ≠ now` says the fresh
ping id of this tick does not collide with an already-recorded id — true in
the source, where ids are strictly increasing `UnixNano` values. -/
theorem doPing_stale_triggers_reconnect (c : Rev2.Client) (now : Int) (writeOk : Bool)
    (outs : Nat → Rev2.CycleOutcome)
    (hstale : ∃ e ∈ c.pingInFlight, e.1 ≠ now ∧ c.pingTimeout ≤ now - e.2)
    (houts : ∀ k, (outs k).fetchErr = false ∧ (outs k).statusCode ≤ 200) :
    1 ≤ (Rev2.doPing c now writeOk outs).cycles
    ∧ (Rev2.doPing c now writeOk outs).client.pingInFlight = [] := by
  have hto := pingPhase1_pingTimeout c now writeOk outs
  rcases pingPhase1_stale c now writeOk outs houts hstale with hsurv | ⟨hnil, hone⟩
  · obtain ⟨e, he, hs⟩ := hsurv
    have := stalePass_stale now outs houts
      (Rev2.pingPhase1 c now writeOk outs).1.pingInFlight
      (Rev2.pingPhase1 c now writeOk outs).1
      (Rev2.pingPhase1 c now writeOk outs).2.2
      ⟨e, he, by rw [hto]; exact hs⟩
    constructor
    · show 1 ≤ (Rev2.stalePass now outs _ _ _).2
      omega
    · show ((Rev2.stalePass now outs _ _ _).1.pingInFlight.filter _) = []
      rw [this.2]
      rfl
  · constructor
    · show 1 ≤ (Rev2.stalePass now outs _ _ _).2
      exact Nat.le_trans hone (stalePass_k_le now outs _ _ _)
    · show ((Rev2.stalePass now outs _ _ _).1.pingInFlight.filter _) = []
      rw [stalePass_pingInFlight_nil now outs _ _ _ hnil]
      rfl

/-- Witness for C5's amended claim at a client with two stale pings. -/
theorem doPing_stale_triggers_reconnect_witness :
    1 ≤ (Rev2.doPing
        { Token := [], EventListeners := [], ActiveChannels := [],
          socketConnection := some 0, pingTimeout := 30, pingMaxInFlight := 5,
          pingMaxFails := 5, pingFails := 0, pingInFlight := [(1, 0), (2, 5)],
          pingInterval := 30, isDebug := true }
        100 true (fun _ => ⟨false, 200, false, some 1⟩)).cycles
    ∧ (Rev2.doPing
        { Token := [], EventListeners := [], ActiveChannels := [],
          socketConnection := some 0, pingTimeout := 30, pingMaxInFlight := 5,
          pingMaxFails := 5, pingFails := 0, pingInFlight := [(1, 0), (2, 5)],
          pingInterval := 30, isDebug := true }
        100 true (fun _ => ⟨false, 200, false, some 1⟩)).client.pingInFlight = [] :=
  doPing_stale_triggers_reconnect
    { Token := [], EventListeners := [], ActiveChannels := [],
      socketConnection := some 0, pingTimeout := 30, pingMaxInFlight := 5,
      pingMaxFails := 5, pingFails := 0, pingInFlight := [(1, 0), (2, 5)],
      pingInterval := 30, isDebug := true }
    100 true (fun _ => ⟨false, 200, false, some 1⟩)
    ⟨(1, 0), by decide, by decide, by decide⟩
    (fun _ => ⟨rfl, Nat.le_refl 200⟩)

/-- Counterexample for C5 as stated: with two stale outstanding pings in one
batch, `doPing` invokes `cycleConnection` twice within the single tick —
the `range` keeps iterating the old map value after the reset — so the
reconnect *is* re-triggered for the same stale batch. -/
theorem doPing_stale_retrigger_counterexample :
    (Rev2.doPing
        { Token := [], EventListeners := [], ActiveChannels := [],
          socketConnection := some 0, pingTimeout := 30, pingMaxInFlight := 5,
          pingMaxFails := 5, pingFails := 0, pingInFlight := [(1, 0), (2, 5)],
          pingInterval := 30, isDebug := true }
        100 true (fun _ => ⟨false, 200, false, some 1⟩)).cycles = 2
    ∧ ¬ ((Rev2.doPing
        { Token := [], EventListeners := [], ActiveChannels := [],
          socketConnection := some 0, pingTimeout := 30, pingMaxInFlight := 5,
          pingMaxFails := 5, pingFails := 0, pingInFlight := [(1, 0), (2, 5)],
          pingInterval := 30, isDebug := true }
        100 true (fun _ => ⟨false, 200, false, some 1⟩)).cycles ≤ 1) := by
  constructor
  · decide
  · decide

/-! ### The REST API layer (api.go) -/

/-- An outbound authenticated POST request: path plus the accumulated
`WithPostData` key/value pairs, in the order the source adds them.  A
function returning `Except.error` failed locally, before this request was
ever performed. -/
structure HttpRequest where
  path : List Char
  postData : List (List Char × List Char)
deriving DecidableEq, Repr

/-- A Go runtime panic (no defined result). -/
inductive GoPanic where
  | nilPointerDereference
deriving DecidableEq, Repr

/-- Go's `string(n)` conversion from an integer: the UTF-8 encoding of the
code point `n`, or U+FFFD when `n` is not a valid code point.  (This is what
`ChannelsHistory` passes as the `count` post-data value — not the decimal
representation.) -/
def goStringOfInt (n : Int) : List Char :=
  if (0 ≤ n ∧ n < 0xD800) ∨ (0xE000 ≤ n ∧ n < 0x110000) then [Char.ofNat n.toNat]
  else [Char.ofNat 0xFFFD]

/-- The `count` clamping of `ChannelsHistory` (api.go lines 46–52). -/
def clampCount (count : Int) : Int :=
  if count = -1 then 1000
  else if count < 1 then 1
  else if count > 1000 then 1000
  else count

/-- `ChannelsHistory` (api.go lines 40–87), up to the point the request is
issued: clamp `count`, build the post data, append `latest` when non-nil;
in the `oldest != nil` branch the source serializes `Timestamp{time: *latest}`
— dereferencing `latest`, which panics when `latest` is nil.  `latest` and
`oldest` are modelled by the Unix seconds of the pointed-to `time.Time`
(`Timestamp{time: t}` has an empty `uuid`, so its `String()` is the plain
seconds). -/
def ChannelsHistory (token channelID : List Char) (latest oldest : Option Int)
    (count : Int) (unreads : Bool) : Except GoPanic HttpRequest :=
  let unreadsValue := if unreads then ['1'] else ['0']
  let count1 := clampCount count
  let base : List (List Char × List Char) :=
    [("token".data, token), ("channel".data, channelID),
     ("count".data, goStringOfInt count1), ("unreads".data, unreadsValue)]
  let withLatest :=
    match latest with
    | some l => base ++ [("latest".data, Timestamp.String ⟨l, []⟩)]
    | none => base
  match oldest with
  | some _ =>
    match latest with
    | some l =>
      .ok ⟨"api/channels.history".data, withLatest ++ [("oldest".data, Timestamp.String ⟨l, []⟩)]⟩
    | none => .error GoPanic.nilPointerDereference
  | none => .ok ⟨"api/channels.history".data, withLatest⟩

/-- The usage-error message shared by the reaction operations. -/
def usageErrorMsg : List Char :=
  "`fileId` or `fileCommentID` or (`channelID` and `ts`) must be not be nil.".data

/-- `ReactionsAdd` (api.go lines 338–373), up to the point the request is
issued: pick the target by the source's priority chain — file, else
file-comment, else channel+timestamp — and fail locally with the usage
error when none of those is complete. -/
def ReactionsAdd (token name : List Char) (fileID fileCommentID channelID : Option (List Char))
    (ts : Option Timestamp) : Except (List Char) HttpRequest :=
  let base := [("token".data, token), ("name".data, name)]
  match fileID with
  | some f => .ok ⟨"api/reactions.add".data, base ++ [("file".data, f)]⟩
  | none =>
    match fileCommentID with
    | some fc => .ok ⟨"api/reactions.add".data, base ++ [("file_comment".data, fc)]⟩
    | none =>
      match channelID, ts with
      | some ch, some t =>
        .ok ⟨"api/reactions.add".data, base ++ [("channel".data, ch), ("timestamp".data, t.String)]⟩
      | _, _ => .error usageErrorMsg

/-- `ReactionsRemove` (api.go lines 413–448): same target chain as
`ReactionsAdd`. -/
def ReactionsRemove (token name : List Char) (fileID fileCommentID channelID : Option (List Char))
    (ts : Option Timestamp) : Except (List Char) HttpRequest :=
  let base := [("token".data, token), ("name".data, name)]
  match fileID with
  | some f => .ok ⟨"api/reactions.remove".data, base ++ [("file".data, f)]⟩
  | none =>
    match fileCommentID with
    | some fc => .ok ⟨"api/reactions.remove".data, base ++ [("file_comment".data, fc)]⟩
    | none =>
      match channelID, ts with
      | some ch, some t =>
        .ok ⟨"api/reactions.remove".data, base ++ [("channel".data, ch), ("timestamp".data, t.String)]⟩
      | _, _ => .error usageErrorMsg

/-- `ReactionsGet` (api.go lines 376–410): same target chain, no `name`
parameter. -/
def ReactionsGet (token : List Char) (fileID fileCommentID channelID : Option (List Char))
    (ts : Option Timestamp) : Except (List Char) HttpRequest :=
  let base := [("token".data, token)]
  match fileID with
  | some f => .ok ⟨"api/reactions.get".data, base ++ [("file".data, f)]⟩
  | none =>
    match fileCommentID with
    | some fc => .ok ⟨"api/reactions.get".data, base ++ [("file_comment".data, fc)]⟩
    | none =>
      match channelID, ts with
      | some ch, some t =>
        .ok ⟨"api/reactions.get".data, base ++ [("channel".data, ch), ("timestamp".data, t.String)]⟩
      | _, _ => .error usageErrorMsg

/-- Whether a reaction operation failed locally with the usage error
(without a request ever being issued). -/
def returnsUsageError : Except (List Char) HttpRequest → Bool
  | .error _ => true
  | .ok _ => false

/-- C8 (amended): each reaction operation fails locally with a usage error,
before any remote request is made, exactly when no complete target is
supplied — file id, file-comment id and channel id all unset, or a channel
id / timestamp pair left incomplete.  (When several targets are supplied
the source picks the first by priority file > file-comment > channel+ts;
see the counterexample for the original "exactly one" phrasing.) -/
theorem reactions_target_validation (token name : List Char)
    (fileID fileCommentID channelID : Option (List Char)) (ts : Option Timestamp) :
    (returnsUsageError (ReactionsAdd token name fileID fileCommentID channelID ts) = true
      ↔ fileID = none ∧ fileCommentID = none ∧ (channelID = none ∨ ts = none))
    ∧ (returnsUsageError (ReactionsRemove token name fileID fileCommentID channelID ts) = true
      ↔ fileID = none ∧ fileCommentID = none ∧ (channelID = none ∨ ts = none))
    ∧ (returnsUsageError (ReactionsGet token fileID fileCommentID channelID ts) = true
      ↔ fileID = none ∧ fileCommentID = none ∧ (channelID = none ∨ ts = none)) := by
  refine ⟨?_, ?_, ?_⟩ <;>
    rcases fileID with _ | f <;> rcases fileCommentID with _ | fc <;>
      rcases channelID with _ | ch <;> rcases ts with _ | t <;>
        simp [ReactionsAdd, ReactionsRemove, ReactionsGet, returnsUsageError]

/-- Counterexample for C8 as stated: supplying *two* targets at once (a file
id and a file-comment id) is an invalid combination under "requires exactly
one of", yet the call does not fail — it proceeds to issue the remote
request, using the file id. -/
theorem reactions_two_targets_counterexample :
    returnsUsageError
        (ReactionsAdd "t".data "thumbsup".data (some "F1".data) (some "Fc1".data) none none)
      = false
    ∧ ReactionsAdd "t".data "thumbsup".data (some "F1".data) (some "Fc1".data) none none
      = Except.ok ⟨"api/reactions.add".data,
          [("token".data, "t".data), ("name".data, "thumbsup".data), ("file".data, "F1".data)]⟩ :=
  ⟨rfl, rfl⟩

/-- C9: the page size `ChannelsHistory` uses is `count` clamped into
`[1, 1000]` — `-1` ("no limit") yields `1000`, any other `count < 1` yields
`1`, any `count > 1000` yields `1000`, and an in-range `count` is used
unchanged — and every successfully built request carries the `count`
post-data value derived from exactly this clamped page size (as Go's
`string(int)` conversion of it). -/
theorem channelsHistory_count_clamped (token channelID : List Char)
    (latest oldest : Option Int) (count : Int) (unreads : Bool) :
    (1 ≤ clampCount count ∧ clampCount count ≤ 1000)
    ∧ (count = -1 → clampCount count = 1000)
    ∧ (count < 1 → count ≠ -1 → clampCount count = 1)
    ∧ (1000 < count → clampCount count = 1000)
    ∧ (1 ≤ count → count ≤ 1000 → clampCount count = count)
    ∧ (∀ req, ChannelsHistory token channelID latest oldest count unreads = Except.ok req →
        ("count".data, goStringOfInt (clampCount count)) ∈ req.postData) := by
  refine ⟨?_, ?_, ?_, ?_, ?_, ?_⟩
  · unfold clampCount; split_ifs <;> omega
  · intro h; unfold clampCount; split_ifs <;> omega
  · intro h1 h2; unfold clampCount; split_ifs <;> omega
  · intro h; unfold clampCount; split_ifs <;> omega
  · intro h1 h2; unfold clampCount; split_ifs <;> omega
  · intro req hreq
    unfold ChannelsHistory at hreq
    rcases oldest with _ | o <;> rcases latest with _ | l <;>
      simp only [] at hreq <;> first
      | exact Except.noConfusion hreq
      | · rcases Except.ok.inj hreq with rfl
          simp

/-- Witness for C9: the four clamp cases at `-1`, `0`, `2000`, `500`, and the
`count` post-data entry of a concretely built request. -/
theorem channelsHistory_count_clamped_witness :
    clampCount (-1) = 1000 ∧ clampCount 0 = 1 ∧ clampCount 2000 = 1000 ∧ clampCount 500 = 500
    ∧ ("count".data, goStringOfInt (clampCount (-1)))
        ∈ (HttpRequest.mk "api/channels.history".data
            [("token".data, "t".data), ("channel".data, "c".data),
             ("count".data, goStringOfInt (clampCount (-1))), ("unreads".data, ['1'])]).postData :=
  ⟨(channelsHistory_count_clamped "t".data "c".data none none (-1) true).2.1 rfl,
   (channelsHistory_count_clamped "t".data "c".data none none 0 true).2.2.1
     (by norm_num) (by norm_num),
   (channelsHistory_count_clamped "t".data "c".data none none 2000 true).2.2.2.1 (by norm_num),
   (channelsHistory_count_clamped "t".data "c".data none none 500 true).2.2.2.2.1
     (by norm_num) (by norm_num),
   (channelsHistory_count_clamped "t".data "c".data none none (-1) true).2.2.2.2.2 _ rfl⟩

/-- C10: whenever `ChannelsHistory` is called with a non-nil `oldest`, the
`oldest` post-data value is serialized from the `latest` argument (and only
from it); and with `oldest` non-nil but `latest` nil the call dereferences a
nil pointer — a Go panic, no defined result. -/
theorem channelsHistory_oldest_uses_latest (token channelID : List Char)
    (l o : Int) (count : Int) (unreads : Bool) :
    (∀ req, ChannelsHistory token channelID (some l) (some o) count unreads = Except.ok req →
        ("oldest".data, Timestamp.String ⟨l, []⟩) ∈ req.postData
        ∧ ∀ v, ("oldest".data, v) ∈ req.postData → v = Timestamp.String ⟨l, []⟩)
    ∧ ChannelsHistory token channelID none (some o) count unreads
        = Except.error GoPanic.nilPointerDereference := by
  constructor
  · intro req hreq
    unfold ChannelsHistory at hreq
    simp only [] at hreq
    rcases Except.ok.inj hreq with rfl
    constructor
    · simp
    · intro v hv
      simp only [List.mem_append, List.mem_cons, List.mem_singleton,
        List.not_mem_nil, or_false, Prod.mk.injEq] at hv
      rcases hv with ((h | h | h | h) | h) | h
      · exact absurd h.1 (by decide)
      · exact absurd h.1 (by decide)
      · exact absurd h.1 (by decide)
      · exact absurd h.1 (by decide)
      · exact absurd h.1 (by decide)
      · exact h.2
  · rfl

/-- Witness for C10: the concrete request for `latest = 5`, `oldest = 7`
carries `oldest` serialized from `latest`, and the `latest = nil` call
panics. -/
theorem channelsHistory_oldest_uses_latest_witness :
    ("oldest".data, Timestamp.String ⟨5, []⟩)
      ∈ (HttpRequest.mk "api/channels.history".data
          ([("token".data, "t".data), ("channel".data, "c".data),
            ("count".data, goStringOfInt (clampCount 10)), ("unreads".data, ['0'])]
           ++ [("latest".data, Timestamp.String ⟨5, []⟩)]
           ++ [("oldest".data, Timestamp.String ⟨5, []⟩)])).postData
    ∧ ChannelsHistory "t".data "c".data none (some 7) 10 false
        = Except.error GoPanic.nilPointerDereference :=
  ⟨((channelsHistory_oldest_uses_latest "t".data "c".data 5 7 10 false).1 _ rfl).1,
   (channelsHistory_oldest_uses_latest "t".data "c".data 5 7 10 false).2⟩
